import Mathlib

/-!
Verification of the execution-context bridging and function-exposure core of
the electron-cdp repository.  The definitions below are shallow embeddings of
the TypeScript sources under src/ (file and line references in the doc
comments); theorems settle the specification claims about them.
-/

set_option maxHeartbeats 1000000

namespace ECdp

/-! ## Generic JavaScript-object-as-association-list helpers

JavaScript object assignment `obj[k] = v` updates an existing key in place
(keeping its position) and appends a new key at the end; `delete obj[k]`
removes it; `obj[k]` reads it.  These helpers model that on association
lists and are shared by several embeddings below. -/

/-- JS property write: update in place if the key exists, else append. -/
def objSet {κ α : Type} [DecidableEq κ] : List (κ × α) → κ → α → List (κ × α)
  | [], k, v => [(k, v)]
  | (k0, v0) :: rest, k, v =>
    if k0 = k then (k0, v) :: rest else (k0, v0) :: objSet rest k v

/-- JS property read (`undefined` becomes `none`). -/
def objGet {κ α : Type} [DecidableEq κ] : List (κ × α) → κ → Option α
  | [], _ => none
  | (k0, v0) :: rest, k => if k0 = k then some v0 else objGet rest k

/-- JS property delete. -/
def objDel {κ α : Type} [DecidableEq κ] : List (κ × α) → κ → List (κ × α)
  | [], _ => []
  | (k0, v0) :: rest, k => if k0 = k then rest else (k0, v0) :: objDel rest k

/-! ## C2: convertExceptionDetailsToError

Embedding of `convertExceptionDetailsToError` from
src/src/executionContext.ts lines 8-37, together with the relevant slice of
the CDP `Runtime.ExceptionDetails` data model. -/

/-- A value stored into the reconstructed error object.  The JS coercion
`Number(prop.value)` is kept symbolic as `coercedNum` (the claim is about
which fields are chosen, not about numeric parsing). -/
inductive ErrVal : Type
  | coercedNum (s : Option String)
  | rawStr (s : Option String)
  | exact (s : String)
deriving DecidableEq, Repr

/-- CDP Runtime.PropertyPreview (the fields read by the source). -/
structure PropertyPreview where
  name : String
  type : String
  value : Option String
deriving DecidableEq, Repr

/-- CDP Runtime.ObjectPreview (the fields read by the source). -/
structure ObjectPreview where
  properties : List PropertyPreview
  description : Option String
deriving DecidableEq, Repr

/-- CDP Runtime.RemoteObject (the fields read by the source). -/
structure RemoteObject where
  className : Option String
  description : Option String
  preview : Option ObjectPreview
deriving DecidableEq, Repr

/-- CDP Runtime.ExceptionDetails (the fields read by the source). -/
structure ExceptionDetails where
  text : String
  exception : Option RemoteObject
deriving DecidableEq, Repr

/-- One step of the `forEach` over preview properties
(src/src/executionContext.ts lines 12-21): `number` properties are stored
through `Number(...)`, `string` properties verbatim, all others skipped. -/
def previewStep (acc : List (String × ErrVal)) (prop : PropertyPreview) :
    List (String × ErrVal) :=
  match prop.type with
  | "number" => objSet acc prop.name (ErrVal.coercedNum prop.value)
  | "string" => objSet acc prop.name (ErrVal.rawStr prop.value)
  | _ => acc

/-- Embedding of convertExceptionDetailsToError (src/src/executionContext.ts lines 8-37),
translated clause for clause. -/
def convertExceptionDetailsToError (d : ExceptionDetails) :
    List (String × ErrVal) :=
  match d.exception with
  | some ex =>
    match ex.preview with
    | some p =>
      let e := p.properties.foldl previewStep []
      match p.description with
      | some desc => objSet e "description" (ErrVal.exact desc)
      | none => e
    | none =>
      let e : List (String × ErrVal) :=
        match ex.className with
        | some c => objSet [] "className" (ErrVal.exact c)
        | none => []
      match ex.description with
      | some desc => objSet e "description" (ErrVal.exact desc)
      | none => e
  | none => objSet [] "text" (ErrVal.exact d.text)

/-- Spec-side reading of one preview property: `number` and `string`
properties become entries, everything else contributes nothing. -/
def propEntry (prop : PropertyPreview) : Option (String × ErrVal) :=
  match prop.type with
  | "number" => some (prop.name, ErrVal.coercedNum prop.value)
  | "string" => some (prop.name, ErrVal.rawStr prop.value)
  | _ => none

/-- Assign a list of entries into an object, left to right. -/
def assignAll (e : List (String × ErrVal)) (entries : List (String × ErrVal)) :
    List (String × ErrVal) :=
  entries.foldl (fun acc kv => objSet acc kv.1 kv.2) e

/-- An optional single entry. -/
def optEntry (k : String) : Option String → List (String × ErrVal)
  | some s => [(k, ErrVal.exact s)]
  | none => []

/-- Spec-side builder for the preview branch: the error is built
property-by-property from the preview properties, plus the preview
description. -/
def previewError (p : ObjectPreview) : List (String × ErrVal) :=
  assignAll [] (p.properties.filterMap propEntry ++ optEntry "description" p.description)

/-- Spec-side builder for the fallback branch: class name plus description. -/
def classDescError (ex : RemoteObject) : List (String × ErrVal) :=
  assignAll [] (optEntry "className" ex.className ++ optEntry "description" ex.description)

/-! ## C7: inbound message demultiplexing

Embedding of the debugger message handler installed
by the Session constructor (src/src/session.ts lines 655-663).  Session ids
are JS strings that may be absent; the guards use JS truthiness, under which
the empty string is falsy. -/

/-- JS truthiness of an optional string. -/
def truthyStr : Option String → Bool
  | none => false
  | some s => !(s == "")

/-- Whether the Session with id `id` re-emits an inbound debugger message
carrying `sessionId` (src/src/session.ts lines 655-663). -/
def messageEmitted (id sessionId : Option String) : Bool :=
  if id.isNone && truthyStr sessionId then false
  else if truthyStr id && id != sessionId then false
  else true

/-! ## C4: retry interval of the exposed-function stub

Embedding of the `setInterval` retry loop in the remote stub
(src/src/session.ts lines 984-1002) in the run where the host acknowledgment
(`returnValues[sequence].init`) never arrives.  Each tick first reads
`returnValues?.[sequence].init`: the optional chaining guards only
`returnValues` itself, so when the entry was already deleted — which the
fire-and-forget path does synchronously before the first tick
(lines 1004-1007) — the `.init` access on undefined throws a TypeError and
the tick aborts before the budget check and before any re-transmission.
When the entry is live and `init` is unset, the tick evaluates
`retry.count-- < 0` (test on the current value, then decrement); if the
budget is not yet negative the tick re-transmits via `invoke()`. -/

/-- Number of re-transmissions the retry interval performs in `ticks` ticks,
starting from the configured `count`, when the init flag never arrives.
`entryLive` records whether the returnValues entry for the sequence still
exists: it does in the withReturnValue path, and it does not in the
fire-and-forget path, where every tick throws before re-transmitting. -/
def retryRetransmissions (entryLive : Bool) (count : Int) (ticks : Nat) : Nat :=
  match ticks with
  | 0 => 0
  | t + 1 =>
    if entryLive then
      if count < 0 then 0
      else retryRetransmissions entryLive (count - 1) t + 1
    else 0

/-! ## C6: enableTrackExecutionContexts

Embedding of `Session.enableTrackExecutionContexts`
(src/src/session.ts lines 455-492).  The method returns `false` at once when
the enabled flag is already set; otherwise it prepends one listener for each
of the three Runtime lifecycle events, sends `Runtime.enable`, sets the flag
and returns `true`.  The model covers the sequential (awaited) protocol the
claim describes, tracking the flag and the listener counts. -/

/-- The slice of Session state touched by enableTrackExecutionContexts. -/
structure TrackState where
  trackExecutionContextsEnabled : Bool
  createdListeners : Nat
  destroyedListeners : Nat
  clearedListeners : Nat
deriving DecidableEq, Repr

/-- Embedding of Session.enableTrackExecutionContexts (src/src/session.ts lines 455-492):
returns the result and the updated state. -/
def enableTrackExecutionContexts (s : TrackState) : Bool × TrackState :=
  if s.trackExecutionContextsEnabled then (false, s)
  else
    (true,
      { trackExecutionContextsEnabled := true,
        createdListeners := s.createdListeners + 1,
        destroyedListeners := s.destroyedListeners + 1,
        clearedListeners := s.clearedListeners + 1 })

/-- Each underlying `Runtime.executionContextCreated` event runs every
registered tracking listener once, and each such listener emits exactly one
`execution-context-created` event (src/src/session.ts lines 470-474). -/
def emissionsPerCreatedEvent (s : TrackState) : Nat := s.createdListeners

/-! ## C9: Session.send attachment guard

Embedding of `Session.send` (src/src/session.ts lines 686-691): the method
throws the not-attached Error before issuing anything when the underlying
debugger reports not attached, and otherwise forwards the command to the
transport.  `respond` stands for the embedding runtime `sendCommand`; the
second component lists the commands actually issued to the transport. -/

/-- Embedding of Session.send against a transport whose attach state is `attached`. -/
def sessionSend {R : Type} (attached : Bool) (respond : String → R)
    (method : String) : Except String R × List String :=
  if !attached then (Except.error "not attached", [])
  else (Except.ok (respond method), [method])

/-- An evaluate issued through such a session: `Expression.execute`
(src/src/executionContext.ts lines 115-124) funnels into
a single session.send of Runtime.evaluate with no other transport use. -/
def evaluateSend {R : Type} (attached : Bool) (respond : String → R) :
    Except String R × List String :=
  sessionSend attached respond "Runtime.evaluate"

/-! ## C10: evaluate argument validation

Embedding of the argument dispatch of `ExecutionContext.evaluate`
(src/src/executionContext.ts lines 260-274) and `Session.evaluate`
(src/src/session.ts lines 354-366).  The JS dispatch looks only at runtime
tags of the first two arguments (instanceof Expression, typeof function), so
the model carries those tags. -/

/-- Runtime tag of an argument at the evaluate call sites. -/
inductive ArgKind : Type
  | expressionObj
  | functionArg
  | objectArg
  | otherArg
deriving DecidableEq, Repr

/-- Which evaluate path was taken. -/
inductive EvalDispatch : Type
  | executed
  | evaluated
deriving DecidableEq, Repr

/-- Embedding of the ExecutionContext.evaluate dispatch (src/src/executionContext.ts lines
260-274): Expression first, then first-is-function, then second-is-function,
else throws the invalid-parameter Error.  The second component lists the
CDP commands sent. -/
def contextEvaluateDispatch (first second : ArgKind) :
    Except String EvalDispatch × List String :=
  if first = ArgKind.expressionObj then
    (Except.ok EvalDispatch.executed, ["Runtime.evaluate"])
  else if first = ArgKind.functionArg then
    (Except.ok EvalDispatch.evaluated, ["Runtime.evaluate"])
  else if first ≠ ArgKind.functionArg ∧ second = ArgKind.functionArg then
    (Except.ok EvalDispatch.evaluated, ["Runtime.evaluate"])
  else (Except.error "invalid parameter", [])

/-- The slice of Session state observable by Session.evaluate: the live
execution-context table (the fresh default-realm ExecutionContext the method
constructs is never inserted into it). -/
structure SessionEvalState where
  executionContexts : List Nat
deriving DecidableEq, Repr

/-- Embedding of the Session.evaluate dispatch (src/src/session.ts lines 354-366): the third
component is the (unchanged) session state. -/
def sessionEvaluateDispatch (s : SessionEvalState) (first second : ArgKind) :
    Except String EvalDispatch × List String × SessionEvalState :=
  if first = ArgKind.functionArg then
    (Except.ok EvalDispatch.evaluated, ["Runtime.evaluate"], s)
  else if first ≠ ArgKind.functionArg ∧ second = ArgKind.functionArg then
    (Except.ok EvalDispatch.evaluated, ["Runtime.evaluate"], s)
  else (Except.error "invalid parameter", [], s)

/-! ## C8: pinned Runtime.evaluate request fields

Embedding of the request object built by `Expression.execute`
(src/src/executionContext.ts lines 115-124).  The object literal lists the
pinned fields first and spreads the caller options last, so a later key would
override an earlier one; but `EvaluateOptions` (src/src/index.ts) is
an Omit of Protocol.Runtime.EvaluateRequest dropping contextId,
uniqueContextId, expression, throwOnSideEffect, awaitPromise, replMode,
returnByValue, generatePreview, serializationOptions and
objectGroup, so the remaining assignable fields are exactly the six
modeled below. -/

/-- Field names of the Runtime.evaluate request relevant to the source. -/
inductive ReqField : Type
  | expression
  | contextId
  | throwOnSideEffect
  | awaitPromise
  | replMode
  | returnByValue
  | generatePreview
  | includeCommandLineAPI
  | silent
  | userGesture
  | timeout
  | disableBreaks
  | allowUnsafeEvalBlockedByCSP
deriving DecidableEq, Repr

/-- Field values of the request object. -/
inductive ReqVal : Type
  | boolV (b : Bool)
  | natV (n : Nat)
  | strV (s : String)
  | ctxV (id : Option Nat)
deriving DecidableEq, Repr

/-- Embedding of EvaluateOptions (src/src/index.ts): the fields of
Runtime.EvaluateRequest left after the Omit, all optional. -/
structure EvaluateOptions where
  includeCommandLineAPI : Option Bool := none
  silent : Option Bool := none
  userGesture : Option Bool := none
  timeout : Option Nat := none
  disableBreaks : Option Bool := none
  allowUnsafeEvalBlockedByCSP : Option Bool := none
deriving DecidableEq, Repr

/-- An optional request entry: present options fields contribute one key. -/
def reqEntry {β : Type} (field : ReqField) (wrap : β → ReqVal) :
    Option β → List (ReqField × ReqVal)
  | some b => [(field, wrap b)]
  | none => []

/-- The keys an `...options` spread contributes, in declaration order. -/
def optionsEntries (o : EvaluateOptions) : List (ReqField × ReqVal) :=
  reqEntry ReqField.includeCommandLineAPI ReqVal.boolV o.includeCommandLineAPI
    ++ reqEntry ReqField.silent ReqVal.boolV o.silent
    ++ reqEntry ReqField.userGesture ReqVal.boolV o.userGesture
    ++ reqEntry ReqField.timeout ReqVal.natV o.timeout
    ++ reqEntry ReqField.disableBreaks ReqVal.boolV o.disableBreaks
    ++ reqEntry ReqField.allowUnsafeEvalBlockedByCSP ReqVal.boolV
        o.allowUnsafeEvalBlockedByCSP

/-- The pinned part of the request object literal, in source order
(src/src/executionContext.ts lines 116-122). -/
def evaluateRequestBase (expr : String) (contextId : Option Nat) :
    List (ReqField × ReqVal) :=
  [(ReqField.expression, ReqVal.strV expr),
   (ReqField.contextId, ReqVal.ctxV contextId),
   (ReqField.throwOnSideEffect, ReqVal.boolV false),
   (ReqField.awaitPromise, ReqVal.boolV true),
   (ReqField.replMode, ReqVal.boolV false),
   (ReqField.returnByValue, ReqVal.boolV false),
   (ReqField.generatePreview, ReqVal.boolV false)]

/-- The entries the trailing `...options` spread contributes (none when the
builder carries no options object). -/
def spreadEntries : Option EvaluateOptions → List (ReqField × ReqVal)
  | some opts => optionsEntries opts
  | none => []

/-- The Runtime.evaluate request object built by `Expression.execute`
(src/src/executionContext.ts lines 115-124): pinned fields, then the caller
options spread with JS later-key-wins semantics. -/
def buildEvaluateRequest (expr : String) (contextId : Option Nat)
    (o : Option EvaluateOptions) : List (ReqField × ReqVal) :=
  (spreadEntries o).foldl
    (fun (acc : List (ReqField × ReqVal)) (kv : ReqField × ReqVal) =>
      objSet acc kv.1 kv.2) (evaluateRequestBase expr contextId)

/-! ## C3: codec-availability wait in the generated script

Embedding of the preloaded-codec prologue of the script text produced by
`generateScriptString` (src/src/utils.ts lines 17-55).  The realm codec
becomes visible at time `availAt` milliseconds (`none` = never); the script
first checks its own realm, its top window and its sibling windows, then
polls on an interval while a `setTimeout` of `options?.timeout ?? 5000`
milliseconds bounds the wait; if the codec is still missing afterwards the
script throws the fatal error of line 53.  That error message interpolates
`fn.name` and `globalThis._executionContextId`; the latter global is never
assigned by any code under src/, so its slot always reads undefined. -/

/-- The bound used for the wait: `options?.timeout ?? 5000`
(src/src/utils.ts line 47). -/
def effectiveTimeout (timeout : Option Nat) : Nat := timeout.getD 5000

/-- The string template of the fatal error thrown when no codec appears
(src/src/utils.ts line 53): a concatenation with two interpolation slots,
one for `fn.name` and one for the JS string coercion of the expression
`globalThis._executionContextId`. -/
def codecMissingMessage (fnName ctxIdText : String) : String :=
  "Critical Error: SuperJSON library is missing. The application cannot proceed without it. : (fn : \""
    ++ fnName ++ "\", executionContextId : " ++ ctxIdText ++ ")"

/-- The text the second slot always receives: `globalThis._executionContextId`
is declared (src/unnamed/part_011 line 90) but never assigned by any code
under src/, so the interpolated expression is always the undefined value and
its JS string coercion is the literal text below, independent of the realm
the script runs in. -/
def executionContextIdGlobal : String := "undefined"

/-- Outcome of the prologue. -/
inductive PrologueResult : Type
  | proceeds
  | fatal (msg : String)
deriving DecidableEq, Repr

/-- Semantics of the prologue: result together with the milliseconds spent
waiting for the codec.  The prologue has no realm-identifier input at all:
the fatal message is built from the never-assigned global. -/
def runCodecPrologue (availAt : Option Nat) (timeout : Option Nat)
    (fnName : String) : PrologueResult × Nat :=
  let limit := effectiveTimeout timeout
  match availAt with
  | some t =>
    if t ≤ limit then (PrologueResult.proceeds, min t limit)
    else (PrologueResult.fatal (codecMissingMessage fnName executionContextIdGlobal), limit)
  | none => (PrologueResult.fatal (codecMissingMessage fnName executionContextIdGlobal), limit)

/-! ## C1 and C5: values crossing the boundary -/

/-- Host and remote values crossing the evaluation boundary; deep equality of
the claim is structural equality here. -/
inductive Value : Type
  | undef
  | nullV
  | boolV (b : Bool)
  | intV (n : Int)
  | strV (s : String)
  | dateV (ms : Int)
  | listV (vs : List Value)

/-! ## C5: remote pending-call tables

Embedding of the realm-local pending-call bookkeeping of an exposed-function
stub (src/src/session.ts lines 964-1041) together with the host-side
write-back of `processBindingCall` (lines 1046-1087).  One invocation records
its entries once, but the host side may then act on the same sequence id any
number of times and in any order relative to the stub: every delivery of the
payload (the original transmission or a retry re-transmission) re-runs the
host callback and its write-back, and the stub deletes both entries when its
promise settles — including on the withReturnValue timeout, which can fire
before a late write-back.  The model is therefore a fold over an arbitrary
event trace. -/

/-- What the host writes into a pending entry: the callback return value into
the returnValues entry, or the thrown error into the errors entry. -/
inductive Written : Type
  | retVal (v : Value)
  | errVal (message : String)

/-- One pending entry (`{name, args}` at creation; `init` and `value` are
written later by the host; an entry is populated when `value` is present). -/
structure PendingEntry where
  name : String
  args : List Value
  init : Bool := false
  value : Option Written := none

/-- The two realm-local tables, keyed by sequence id. -/
structure CallTables where
  returnValues : List (String × PendingEntry)
  errors : List (String × PendingEntry)

/-- The empty tables. -/
def emptyTables : CallTables := { returnValues := [], errors := [] }

/-- The stub records fresh entries in both tables under its sequence id
(src/src/session.ts lines 966-968). -/
def stubRecord (t : CallTables) (seq name : String) (args : List Value) :
    CallTables :=
  { returnValues := objSet t.returnValues seq { name := name, args := args },
    errors := objSet t.errors seq { name := name, args := args } }

/-- Host acknowledgment for the retry protocol: sets `init` on the
returnValues entry when it is still present (src/src/session.ts
lines 1061-1065). -/
def hostAckInit (t : CallTables) (seq : String) : CallTables :=
  { t with
    returnValues :=
      match objGet t.returnValues seq with
      | some e => objSet t.returnValues seq { e with init := true }
      | none => t.returnValues }

/-- Host-side settle of one call (src/src/session.ts lines 1067-1086): on
success write the value into the returnValues entry (when withReturnValue
was configured); on an error other than the two target-gone messages write
it into the errors entry; target-gone errors are swallowed. -/
def hostWriteBack (t : CallTables) (seq : String) (withReturnValue : Bool)
    (outcome : Except String Value) : CallTables :=
  match outcome with
  | Except.ok v =>
    if withReturnValue then
      { t with
        returnValues :=
          match objGet t.returnValues seq with
          | some e =>
            objSet t.returnValues seq { e with value := some (Written.retVal v) }
          | none => t.returnValues }
    else t
  | Except.error msg =>
    if msg ≠ "target closed while handling command"
        ∧ msg ≠ "Cannot find context with specified id" then
      if withReturnValue then
        { t with
          errors :=
            match objGet t.errors seq with
            | some e =>
              objSet t.errors seq { e with value := some (Written.errVal msg) }
            | none => t.errors }
      else t
    else t

/-- Both entries for a sequence are deleted together: immediately in the
fire-and-forget path (src/src/session.ts lines 1004-1007) and in the
`promise.finally` settle cleanup (lines 1024-1032). -/
def stubCleanup (t : CallTables) (seq : String) : CallTables :=
  { returnValues := objDel t.returnValues seq,
    errors := objDel t.errors seq }

/-- Whether the entry for `seq` in a table is populated (carries a value). -/
def populatedIn (tbl : List (String × PendingEntry)) (seq : String) : Bool :=
  match objGet tbl seq with
  | some e => e.value.isSome
  | none => false

/-- The events that can touch the tables for one sequence id after the stub
recorded its entries: a host processing of the payload (once per delivered
transmission, original or retransmitted, lines 1046-1087), a host retry
acknowledgment (lines 1061-1065), and the stub settle cleanup
(lines 1024-1032, also run by the withReturnValue timeout rejection). -/
inductive CallEvent : Type
  | deliver (outcome : Except String Value)
  | ackInit
  | cleanup

/-- Effect of one event on the tables. -/
def callStep (withReturnValue : Bool) (t : CallTables) (seq : String) :
    CallEvent → CallTables
  | CallEvent.deliver o => hostWriteBack t seq withReturnValue o
  | CallEvent.ackInit => hostAckInit t seq
  | CallEvent.cleanup => stubCleanup t seq

/-- One stub invocation over initially empty tables followed by an arbitrary
event trace: the stub records both entries (and, in the fire-and-forget path,
deletes them again immediately, lines 1004-1007), then the events act. -/
def runCall (withReturnValue : Bool) (name : String) (args : List Value)
    (seq : String) (events : List CallEvent) : CallTables :=
  let t0 := stubRecord emptyTables seq name args
  let t1 := if withReturnValue then t0 else stubCleanup t0 seq
  events.foldl (fun t e => callStep withReturnValue t seq e) t1

/-- Abstract shape of the tables for one sequence: both entries absent, or
both present with the returnValues init bit, the returnValues value and the
errors value as the only varying parts (the host never sets init on the
errors entry). -/
inductive CallPhase : Type
  | absent
  | live (initBit : Bool) (rv ev : Option Written)

/-- The concrete tables a phase denotes. -/
def phaseTables (seq name : String) (args : List Value) : CallPhase → CallTables
  | CallPhase.absent => { returnValues := [], errors := [] }
  | CallPhase.live b rv ev =>
    { returnValues := [(seq, { name := name, args := args, init := b, value := rv })],
      errors := [(seq, { name := name, args := args, init := false, value := ev })] }

/-- The effect of one event on the phase; `callStep_phase` below proves this
is exactly what `callStep` does to the denoted tables. -/
def phaseStep (withReturnValue : Bool) (ph : CallPhase) (e : CallEvent) :
    CallPhase :=
  match ph with
  | CallPhase.absent => CallPhase.absent
  | CallPhase.live b rv ev =>
    match e with
    | CallEvent.ackInit => CallPhase.live true rv ev
    | CallEvent.cleanup => CallPhase.absent
    | CallEvent.deliver (Except.ok v) =>
      if withReturnValue then CallPhase.live b (some (Written.retVal v)) ev
      else CallPhase.live b rv ev
    | CallEvent.deliver (Except.error msg) =>
      if msg ≠ "target closed while handling command"
          ∧ msg ≠ "Cannot find context with specified id" then
        (if withReturnValue then CallPhase.live b rv (some (Written.errVal msg))
         else CallPhase.live b rv ev)
      else CallPhase.live b rv ev

/-! ## C1: the evaluate pipeline

Embedding of the round trip performed by `ExecutionContext.evaluate` for a
function argument: `generateScriptString` (src/src/utils.ts lines 8-74)
embeds the codec-encoded argument list in the script; the remote realm
decodes it, runs the `argsCode` reassignments (lines 10-16 and 66), invokes
the reconstructed function, and returns the codec-encoded result (or throws
the codec-encoded error); the host (src/unnamed/part_003 lines 137-154)
rejects on exceptionDetails, maps an undefined result value to undefined,
and otherwise decodes the returned string.  Purity of the evaluated function
means the function reconstructed from its printed source behaves like the
host function, so both sides are the same Lean function here, acting on the
post-reassignment argument list. -/

/-- Modelled from the spec: the structured value codec.  The repository
wrapper module (src/unnamed/part_009) only registers custom type handlers
around the external superjson package, whose encode/decode algorithm lives
outside the repository; per spec section 4.1 the codec is a black-box
serializer operating identically on host and remote, with the `RoundTrips`
contract below.  The wire type is abstracted as a type parameter. -/
structure Codec (W : Type) where
  encode : Value → W
  decode : W → Option Value

/-- The codec contract of section 4.1: decoding an encoded value yields the
value back. -/
def RoundTrips {W : Type} (c : Codec W) : Prop :=
  ∀ v, c.decode (c.encode v) = some v

/-- The check of the argsCode builder (src/src/utils.ts line 12): whether a
string starts with the word function, on the character level. -/
def strHasFunctionHead (s : String) : Bool :=
  "function".data.isPrefixOf s.data

/-- An argument as the invoked function sees it in the remote realm: either
the decoded codec value, or a function object produced by the argsCode
reassignment, which replaces a string argument starting with the word
function by the result of evaluating its text as code. -/
inductive JsArg : Type
  | val (v : Value)
  | funcFromSource (src : String)

/-- The argsCode post-processing applied to each decoded argument
(src/src/utils.ts lines 11-16 emit one reassignment per string argument
starting with the word function; line 66 interpolates them right after the
parse). -/
def rewriteArg (v : Value) : JsArg :=
  match v with
  | Value.strV s =>
    if strHasFunctionHead s then JsArg.funcFromSource s else JsArg.val v
  | v => JsArg.val v

/-- JS typeof on the modelled values. -/
def jsTypeofVal : Value → String
  | Value.undef => "undefined"
  | Value.nullV => "object"
  | Value.boolV _ => "boolean"
  | Value.intV _ => "number"
  | Value.strV _ => "string"
  | Value.dateV _ => "object"
  | Value.listV _ => "object"

/-- Semantics of the pure one-parameter function returning typeof of its
argument, on the modelled argument domain (typeof of a missing argument is
undefined). -/
def jsTypeof : List JsArg → Value
  | JsArg.val v :: _ => Value.strV (jsTypeofVal v)
  | JsArg.funcFromSource _ :: _ => Value.strV "function"
  | [] => Value.strV "undefined"

/-- Outcome of invoking the reconstructed function remotely. -/
inductive ExecOutcome : Type
  | ok (v : Value)
  | threw (e : Value)

/-- The CDP response surface of Runtime.evaluate as used by the source:
either a result value (possibly undefined) or exceptionDetails carrying the
remotely thrown, codec-encoded error. -/
inductive CDPResponse (W : Type) : Type
  | success (value : Option W)
  | exception (thrownWire : Option W)

/-- Remote semantics of the script body produced by generateScriptString
(src/src/utils.ts lines 62-73): parse the embedded args payload with the
realm codec, apply the interpolated argsCode reassignments (line 66), invoke
the function on the rewritten arguments, stringify the result; a thrown
error is re-thrown stringified; a malformed payload makes the parse itself
throw. -/
def remoteRun {W : Type} (c : Codec W) (g : List JsArg → ExecOutcome)
    (argsWire : W) : CDPResponse W :=
  match c.decode argsWire with
  | some (Value.listV args) =>
    match g (args.map rewriteArg) with
    | ExecOutcome.ok v => CDPResponse.success (some (c.encode v))
    | ExecOutcome.threw e => CDPResponse.exception (some (c.encode e))
  | _ => CDPResponse.exception none

/-- Host-side outcome of one evaluate call. -/
inductive EvalOutcome (W : Type) : Type
  | resolved (v : Value)
  | undefinedResult
  | remoteException (thrownWire : Option W)
  | decodeFailure

/-- Host handling of the CDP response (src/unnamed/part_003 lines 149-153):
throw on exceptionDetails, return undefined when `res.result?.value` is
undefined, otherwise `superJSON.parse` the returned string (a parse failure
throws a SerializationError). -/
def hostHandle {W : Type} (c : Codec W) (r : CDPResponse W) : EvalOutcome W :=
  match r with
  | CDPResponse.exception w => EvalOutcome.remoteException w
  | CDPResponse.success none => EvalOutcome.undefinedResult
  | CDPResponse.success (some w) =>
    match c.decode w with
    | some v => EvalOutcome.resolved v
    | none => EvalOutcome.decodeFailure

/-- The full evaluate pipeline for a function argument and codec-serializable
argument tuple: encode the args on the host, run the generated script
remotely, handle the response on the host. -/
def evaluateModel {W : Type} (c : Codec W) (g : List JsArg → ExecOutcome)
    (args : List Value) : EvalOutcome W :=
  hostHandle c (remoteRun c g (c.encode (Value.listV args)))

/-- A concrete codec satisfying the contract, used to instantiate the
identity theorem: the wire is the value itself. -/
def idCodec : Codec Value :=
  { encode := fun v => v, decode := fun v => some v }

/-! ## Helper lemmas -/

/-- Writing one key leaves reads of other keys unchanged. -/
theorem objGet_objSet_ne {κ α : Type} [DecidableEq κ] (l : List (κ × α))
    (k' k : κ) (v : α) (h : k' ≠ k) : objGet (objSet l k' v) k = objGet l k := by
  induction l with
  | nil => simp [objSet, objGet, h]
  | cons kv rest ih =>
    obtain ⟨k0, v0⟩ := kv
    by_cases hk : k0 = k'
    · subst hk
      simp only [objSet, if_pos rfl, objGet, if_neg h]
    · simp only [objSet, if_neg hk, objGet]
      by_cases hk2 : k0 = k
      · simp [hk2]
      · simp [hk2, ih]

/-- Spreading entries none of whose keys is `k` leaves reads of `k`
unchanged. -/
theorem objGet_spread_ne {κ α : Type} [DecidableEq κ] (l acc : List (κ × α))
    (k : κ) (h : ∀ kv ∈ l, kv.1 ≠ k) :
    objGet (l.foldl (fun (acc : List (κ × α)) (kv : κ × α) =>
      objSet acc kv.1 kv.2) acc) k = objGet acc k := by
  induction l generalizing acc with
  | nil => rfl
  | cons kv rest ih =>
    rw [List.foldl_cons, ih _ (fun kv2 hm => h kv2 (List.mem_cons_of_mem _ hm)),
      objGet_objSet_ne _ _ _ _ (h kv (List.mem_cons_self _ _))]

/-- Every entry contributed by a `reqEntry` carries its declared field. -/
theorem reqEntry_key {β : Type} (field : ReqField) (wrap : β → ReqVal)
    (ob : Option β) (kv : ReqField × ReqVal) (h : kv ∈ reqEntry field wrap ob) :
    kv.1 = field := by
  cases ob with
  | none => simp [reqEntry] at h
  | some b =>
    simp [reqEntry] at h
    simp [h]

/-- The keys a caller options spread can contribute are exactly the six
fields that survive the Omit of EvaluateOptions. -/
theorem optionsEntries_keys (o : EvaluateOptions) (kv : ReqField × ReqVal)
    (h : kv ∈ optionsEntries o) :
    kv.1 = ReqField.includeCommandLineAPI ∨ kv.1 = ReqField.silent
      ∨ kv.1 = ReqField.userGesture ∨ kv.1 = ReqField.timeout
      ∨ kv.1 = ReqField.disableBreaks
      ∨ kv.1 = ReqField.allowUnsafeEvalBlockedByCSP := by
  simp only [optionsEntries, List.mem_append] at h
  rcases h with ((((h | h) | h) | h) | h) | h
  · exact Or.inl (reqEntry_key _ _ _ _ h)
  · exact Or.inr (Or.inl (reqEntry_key _ _ _ _ h))
  · exact Or.inr (Or.inr (Or.inl (reqEntry_key _ _ _ _ h)))
  · exact Or.inr (Or.inr (Or.inr (Or.inl (reqEntry_key _ _ _ _ h))))
  · exact Or.inr (Or.inr (Or.inr (Or.inr (Or.inl (reqEntry_key _ _ _ _ h)))))
  · exact Or.inr (Or.inr (Or.inr (Or.inr (Or.inr (reqEntry_key _ _ _ _ h)))))

/-- A dead entry (fire-and-forget path) never re-transmits: every tick
throws before the budget check. -/
theorem retryRetransmissions_dead (count : Int) (ticks : Nat) :
    retryRetransmissions false count ticks = 0 := by
  cases ticks <;> simp [retryRetransmissions]

/-- A negative retry budget never re-transmits. -/
theorem retryRetransmissions_neg (count : Int) (ticks : Nat) (h : count < 0) :
    retryRetransmissions true count ticks = 0 := by
  cases ticks <;> simp [retryRetransmissions, h]

/-- Upper bound on the re-transmissions of the live-entry retry loop. -/
theorem retryRetransmissions_le (count : Int) (ticks : Nat) :
    retryRetransmissions true count ticks ≤ (count + 1).toNat := by
  induction ticks generalizing count with
  | zero => simp [retryRetransmissions]
  | succ t ih =>
    simp only [retryRetransmissions, if_true]
    split
    · exact Nat.zero_le _
    · rename_i hc
      have h2 := ih (count - 1)
      omega

/-- With enough ticks, a live entry and a nonnegative budget the loop
re-transmits exactly budget-plus-one times. -/
theorem retryRetransmissions_exact (count : Int) (ticks : Nat) (h0 : 0 ≤ count)
    (h : count.toNat + 1 ≤ ticks) :
    retryRetransmissions true count ticks = count.toNat + 1 := by
  induction ticks generalizing count with
  | zero => omega
  | succ t ih =>
    simp only [retryRetransmissions, if_true]
    rw [if_neg (by omega)]
    by_cases hc : count = 0
    · subst hc
      rw [retryRetransmissions_neg _ _ (by omega)]
      omega
    · rw [ih (count - 1) (by omega) (by omega)]
      omega

/-! ## Theorems settling the claims -/

/-- C4 counterexample: with `retry: {count: 2}`, withReturnValue keeping the
entry live, and the init acknowledgment never arriving, the stub re-transmits
three times (the post-decrement test `retry.count-- < 0` only stops the
fourth tick), so the claimed bound of at most two re-transmissions is
false. -/
theorem retry_budget_counterexample :
    retryRetransmissions true 2 3 = 3
    ∧ ¬ retryRetransmissions true 2 3 ≤ 2 := by
  decide

/-- C4 amended: with `retry: {count: n}` (n nonnegative) and no
acknowledgment, a stub with withReturnValue configured (live entry)
re-transmits at most n + 1 times, and exactly n + 1 times once the interval
has fired n + 1 times; without withReturnValue the entries are already
deleted, every tick throws a TypeError before the budget check, and the stub
never re-transmits. -/
theorem retry_budget_amended (count : Int) (ticks : Nat) (h : 0 ≤ count) :
    retryRetransmissions true count ticks ≤ count.toNat + 1
    ∧ (count.toNat + 1 ≤ ticks →
        retryRetransmissions true count ticks = count.toNat + 1)
    ∧ retryRetransmissions false count ticks = 0 := by
  refine ⟨?_, retryRetransmissions_exact count ticks h,
    retryRetransmissions_dead count ticks⟩
  have := retryRetransmissions_le count ticks
  omega

/-- C4 amended, instantiated: count 2 over five ticks re-transmits exactly
three times with a live entry and never with a dead one. -/
theorem retry_budget_amended_witness :
    (0 : Int) ≤ 2 ∧ retryRetransmissions true 2 5 ≤ (2 : Int).toNat + 1
    ∧ retryRetransmissions true 2 5 = (2 : Int).toNat + 1
    ∧ retryRetransmissions false 2 5 = 0 :=
  ⟨by decide, (retry_budget_amended 2 5 (by decide)).1,
    (retry_budget_amended 2 5 (by decide)).2.1 (by decide),
    (retry_budget_amended 2 5 (by decide)).2.2⟩

/-- C6: on a session that has not yet enabled tracking and carries no
tracking listeners, the first enableTrackExecutionContexts call returns true,
the second returns false and changes nothing, and afterwards exactly one
listener set is registered, so each underlying Runtime.executionContextCreated
event produces exactly one execution-context-created emission. -/
theorem enable_track_idempotent (s : TrackState)
    (h : s.trackExecutionContextsEnabled = false)
    (hc : s.createdListeners = 0) (hd : s.destroyedListeners = 0)
    (he : s.clearedListeners = 0) :
    (enableTrackExecutionContexts s).1 = true
    ∧ (enableTrackExecutionContexts (enableTrackExecutionContexts s).2).1 = false
    ∧ (enableTrackExecutionContexts (enableTrackExecutionContexts s).2).2
        = (enableTrackExecutionContexts s).2
    ∧ (enableTrackExecutionContexts (enableTrackExecutionContexts s).2).2.createdListeners = 1
    ∧ (enableTrackExecutionContexts (enableTrackExecutionContexts s).2).2.destroyedListeners = 1
    ∧ (enableTrackExecutionContexts (enableTrackExecutionContexts s).2).2.clearedListeners = 1
    ∧ emissionsPerCreatedEvent
        (enableTrackExecutionContexts (enableTrackExecutionContexts s).2).2 = 1 := by
  simp [enableTrackExecutionContexts, emissionsPerCreatedEvent, h, hc, hd, he]

/-- C6 witness: the fresh session state. -/
theorem enable_track_idempotent_witness :
    (enableTrackExecutionContexts ⟨false, 0, 0, 0⟩).1 = true
    ∧ (enableTrackExecutionContexts
        (enableTrackExecutionContexts ⟨false, 0, 0, 0⟩).2).1 = false := by
  have h := enable_track_idempotent ⟨false, 0, 0, 0⟩ rfl rfl rfl rfl
  exact ⟨h.1, h.2.1⟩

/-- C7 counterexample: the handler guards use JS truthiness, so a session
whose id is the (defined) empty string passes both guards and emits a message
addressed to a different session. -/
theorem message_demux_counterexample :
    ¬ (∀ (i : String) (sid : Option String),
        messageEmitted (some i) sid = true → sid = some i) := by
  intro h
  have h2 := h "" (some "abc") (by decide)
  simp at h2

/-- C7 amended: a session with a defined nonempty id emits exactly the
messages whose sessionId equals that id; a session whose id is the empty
string emits every message; the root session emits exactly the messages
whose sessionId is absent or the empty string. -/
theorem message_demux_amended (i : String) (sid : Option String) :
    (i ≠ "" → (messageEmitted (some i) sid = true ↔ sid = some i))
    ∧ messageEmitted (some "") sid = true
    ∧ (messageEmitted none sid = true ↔ (sid = none ∨ sid = some "")) := by
  refine ⟨?_, ?_, ?_⟩
  · intro hi
    cases sid with
    | none =>
      simp [messageEmitted, truthyStr, hi]
    | some s =>
      by_cases hs : i = s
      · subst hs
        simp [messageEmitted, truthyStr]
      · simp [messageEmitted, truthyStr, hi, hs, Ne.symm hs]
  · cases sid with
    | none => rfl
    | some s => simp [messageEmitted, truthyStr]
  · cases sid with
    | none => simp [messageEmitted, truthyStr]
    | some s =>
      by_cases hs : s = ""
      · subst hs
        simp [messageEmitted, truthyStr]
      · simp [messageEmitted, truthyStr, hs]

/-- C7 amended, instantiated at a nonempty id with the matching sessionId. -/
theorem message_demux_amended_witness :
    messageEmitted (some "abc") (some "abc") = true :=
  ((message_demux_amended "abc" (some "abc")).1 (by decide)).mpr rfl

/-- C9: a send on a session whose debugger is not attached fails with the
not-attached error and issues no command to the transport, and an evaluate
issued through such a session fails the same way. -/
theorem send_not_attached {R : Type} (respond : String → R) (method : String) :
    sessionSend false respond method = (Except.error "not attached", [])
    ∧ evaluateSend false respond = (Except.error "not attached", []) :=
  ⟨rfl, rfl⟩

/-- C10: when the first argument is neither an Expression nor a function and
the second is not a function, both evaluate entry points reject with the
invalid-parameter error, send no CDP command, and leave the session state
unchanged. -/
theorem invalid_parameter_rejection (s : SessionEvalState)
    (first second : ArgKind) (h1 : first ≠ ArgKind.expressionObj)
    (h2 : first ≠ ArgKind.functionArg) (h3 : second ≠ ArgKind.functionArg) :
    contextEvaluateDispatch first second = (Except.error "invalid parameter", [])
    ∧ sessionEvaluateDispatch s first second
        = (Except.error "invalid parameter", [], s) := by
  constructor
  · simp [contextEvaluateDispatch, h1, h2, h3]
  · simp [sessionEvaluateDispatch, h2, h3]

/-- C10 witness: an options object first and a non-function second. -/
theorem invalid_parameter_rejection_witness :
    contextEvaluateDispatch ArgKind.objectArg ArgKind.otherArg
      = (Except.error "invalid parameter", [])
    ∧ sessionEvaluateDispatch ⟨[]⟩ ArgKind.objectArg ArgKind.otherArg
      = (Except.error "invalid parameter", [], (⟨[]⟩ : SessionEvalState)) :=
  invalid_parameter_rejection ⟨[]⟩ ArgKind.objectArg ArgKind.otherArg
    (by decide) (by decide) (by decide)

/-- C8: every Runtime.evaluate request built by the evaluate path pins
throwOnSideEffect to false, awaitPromise to true, returnByValue to false and
generatePreview to false, for every expression, context id and caller
options object: the trailing `...options` spread cannot override them since
EvaluateOptions omits those fields. -/
theorem evaluate_request_pinned (expr : String) (contextId : Option Nat)
    (o : Option EvaluateOptions) :
    objGet (buildEvaluateRequest expr contextId o) ReqField.throwOnSideEffect
        = some (ReqVal.boolV false)
    ∧ objGet (buildEvaluateRequest expr contextId o) ReqField.awaitPromise
        = some (ReqVal.boolV true)
    ∧ objGet (buildEvaluateRequest expr contextId o) ReqField.returnByValue
        = some (ReqVal.boolV false)
    ∧ objGet (buildEvaluateRequest expr contextId o) ReqField.generatePreview
        = some (ReqVal.boolV false) := by
  have hne : ∀ (k : ReqField),
      k = ReqField.throwOnSideEffect ∨ k = ReqField.awaitPromise
        ∨ k = ReqField.returnByValue ∨ k = ReqField.generatePreview →
      ∀ kv ∈ spreadEntries o, kv.1 ≠ k := by
    intro k hk kv hm
    cases o with
    | none => simp [spreadEntries] at hm
    | some opts =>
      have h6 := optionsEntries_keys opts kv hm
      rcases h6 with h | h | h | h | h | h <;>
        rcases hk with hk | hk | hk | hk <;> subst hk <;> rw [h] <;> decide
  unfold buildEvaluateRequest
  refine ⟨?_, ?_, ?_, ?_⟩ <;>
    rw [objGet_spread_ne _ _ _ (hne _ (by simp))] <;> rfl

/-- C3: in a codec-preloaded session the generated script does wait at most
`options.timeout` milliseconds (5000 when no timeout is given) and does fail
fast with the fatal error when no codec appears within the bound, and the
message does carry the function name; but the slot meant for the realm
identifier is the string coercion of the never-assigned global
`globalThis._executionContextId`, so the message ends with the literal text
undefined for every realm and never identifies the realm identifier. -/
theorem codec_wait_fatal_undefined_id (availAt timeout : Option Nat)
    (fnName : String) :
    (runCodecPrologue availAt timeout fnName).2 ≤ effectiveTimeout timeout
    ∧ effectiveTimeout none = 5000
    ∧ ((∀ t, availAt = some t → effectiveTimeout timeout < t) →
        (runCodecPrologue availAt timeout fnName).1
          = PrologueResult.fatal
              (codecMissingMessage fnName executionContextIdGlobal))
    ∧ (∃ pre mid,
        codecMissingMessage fnName executionContextIdGlobal
          = pre ++ fnName ++ mid ++ "undefined" ++ ")") := by
  refine ⟨?_, rfl, ?_, ?_⟩
  · cases availAt with
    | none => simp [runCodecPrologue]
    | some t =>
      by_cases ht : t ≤ effectiveTimeout timeout <;>
        simp [runCodecPrologue, ht, Nat.min_le_right]
  · intro h
    cases havail : availAt with
    | none => simp [runCodecPrologue]
    | some t =>
      have h2 := h t havail
      simp [runCodecPrologue, Nat.not_le.mpr h2]
  · exact ⟨"Critical Error: SuperJSON library is missing. The application cannot proceed without it. : (fn : \"",
      "\", executionContextId : ", rfl⟩

/-- C3 witness: no codec ever appears, no timeout given. -/
theorem codec_wait_fatal_undefined_id_witness :
    (runCodecPrologue none none "f").1
      = PrologueResult.fatal (codecMissingMessage "f" executionContextIdGlobal)
    ∧ (runCodecPrologue none none "f").2 ≤ effectiveTimeout none :=
  ⟨(codec_wait_fatal_undefined_id none none "f").2.2.1 (fun t h => by cases h),
    (codec_wait_fatal_undefined_id none none "f").1⟩

/-- Assigning an appended entry list is assigning the two parts in turn. -/
theorem assignAll_append (acc l1 l2 : List (String × ErrVal)) :
    assignAll acc (l1 ++ l2) = assignAll (assignAll acc l1) l2 := by
  simp [assignAll, List.foldl_append]

/-- One step of the preview forEach equals assigning the optional entry the
property contributes. -/
theorem previewStep_eq_entry (acc : List (String × ErrVal))
    (prop : PropertyPreview) :
    previewStep acc prop =
      match propEntry prop with
      | some kv => objSet acc kv.1 kv.2
      | none => acc := by
  unfold previewStep propEntry
  split
  · rfl
  · rfl
  · rfl

/-- The preview forEach is the assignment of the filtered entry list. -/
theorem foldl_previewStep_filterMap (props : List PropertyPreview)
    (acc : List (String × ErrVal)) :
    props.foldl previewStep acc = assignAll acc (props.filterMap propEntry) := by
  induction props generalizing acc with
  | nil => rfl
  | cons p rest ih =>
    rw [List.foldl_cons, List.filterMap_cons, previewStep_eq_entry]
    cases hp : propEntry p with
    | none => simp only [ih]
    | some kv =>
      simp only [ih]
      rfl

/-- C2: the rejection value of an evaluate whose response carries
exceptionDetails follows the preference chain: preview-derived
property-by-property reconstruction (plus preview description) when a
preview exists, class name plus description otherwise, and the raw text when
there is no exception object at all. -/
theorem exception_preference_chain (d : ExceptionDetails) :
    (∀ ex p, d.exception = some ex → ex.preview = some p →
        convertExceptionDetailsToError d = previewError p)
    ∧ (∀ ex, d.exception = some ex → ex.preview = none →
        convertExceptionDetailsToError d = classDescError ex)
    ∧ (d.exception = none →
        convertExceptionDetailsToError d = [("text", ErrVal.exact d.text)]) := by
  refine ⟨?_, ?_, ?_⟩
  · intro ex p hex hp
    simp only [convertExceptionDetailsToError, hex, hp]
    unfold previewError
    rw [assignAll_append, ← foldl_previewStep_filterMap]
    cases p.description with
    | none => rfl
    | some desc => rfl
  · intro ex hex hp
    simp only [convertExceptionDetailsToError, hex, hp, classDescError,
      assignAll, optEntry, List.foldl_append]
    cases ex.className with
    | none =>
      cases ex.description with
      | none => rfl
      | some desc => rfl
    | some c =>
      cases ex.description with
      | none => rfl
      | some desc => rfl
  · intro hex
    simp [convertExceptionDetailsToError, hex, objSet]

/-- C2 witness: a protocol-level exception with no exception object carries
only the raw text. -/
theorem exception_preference_chain_witness :
    convertExceptionDetailsToError { text := "boom", exception := none }
      = [("text", ErrVal.exact "boom")] :=
  (exception_preference_chain { text := "boom", exception := none }).2.2 rfl

/-- When no argument is a string starting with the word function, the
argsCode reassignments leave the argument list untouched. -/
theorem rewriteArgs_eq (l : List Value)
    (h : ∀ s, Value.strV s ∈ l → strHasFunctionHead s = false) :
    l.map rewriteArg = l.map JsArg.val := by
  induction l with
  | nil => rfl
  | cons v rest ih =>
    simp only [List.map_cons]
    have h1 : rewriteArg v = JsArg.val v := by
      cases v with
      | strV s => simp [rewriteArg, h s (List.mem_cons_self _ _)]
      | undef => rfl
      | nullV => rfl
      | boolV b => rfl
      | intV n => rfl
      | dateV ms => rfl
      | listV vs => rfl
    rw [h1, ih (fun s hm => h s (List.mem_cons_of_mem _ hm))]

/-- C1 counterexample: the argsCode reassignment of generateScriptString
rewrites a string argument starting with the word function into a function
object before the evaluated function runs, so evaluating the pure typeof
function on the codec-serializable argument tuple holding the single string
function(){} resolves to the string function, while the local computation on
the same tuple yields the string string: evaluate does not resolve
deep-equal to the locally computed result for every codec-serializable
argument tuple. -/
theorem evaluate_identity_counterexample :
    evaluateModel idCodec (fun a => ExecOutcome.ok (jsTypeof a))
      [Value.strV "function(){}"]
      = EvalOutcome.resolved (Value.strV "function")
    ∧ jsTypeof [JsArg.val (Value.strV "function(){}")] = Value.strV "string"
    ∧ ("function" : String) ≠ "string" :=
  ⟨rfl, rfl, by decide⟩

/-- C1 amended: for every codec satisfying the round-trip contract, every
pure function and every codec-serializable argument tuple in which no
argument is a string starting with the word function (so the argsCode
reassignment leaves the arguments untouched), the evaluate pipeline resolves
to exactly the value the function computes locally. -/
theorem evaluate_identity_amended {W : Type} (c : Codec W) (h : RoundTrips c)
    (g : List JsArg → Value) (args : List Value)
    (hargs : ∀ s, Value.strV s ∈ args → strHasFunctionHead s = false) :
    evaluateModel c (fun a => ExecOutcome.ok (g a)) args
      = EvalOutcome.resolved (g (args.map JsArg.val)) := by
  simp [evaluateModel, remoteRun, hostHandle, h (Value.listV args),
    rewriteArgs_eq args hargs, h (g (args.map JsArg.val))]

/-- C1 amended witness, scenario A: with a concrete round-tripping codec,
evaluating the constant computation of 40 + 2 on no arguments resolves
to 42. -/
theorem evaluate_identity_amended_witness :
    RoundTrips idCodec
    ∧ evaluateModel idCodec
        (fun a => ExecOutcome.ok ((fun _ => Value.intV (40 + 2)) a)) []
      = EvalOutcome.resolved (Value.intV 42) :=
  ⟨fun _ => rfl,
    evaluate_identity_amended idCodec (fun _ => rfl)
      (fun _ => Value.intV (40 + 2)) []
      (fun _ hm => absurd hm (List.not_mem_nil _))⟩

/-- One event acts on denoted tables exactly as the phase transition says. -/
theorem callStep_phase (wrv : Bool) (seq name : String) (args : List Value)
    (ph : CallPhase) (e : CallEvent) :
    callStep wrv (phaseTables seq name args ph) seq e
      = phaseTables seq name args (phaseStep wrv ph e) := by
  cases ph with
  | absent =>
    cases e with
    | deliver o =>
      rcases o with msg | v
      · cases wrv <;>
          simp [phaseTables, phaseStep, callStep, hostWriteBack, objGet]
      · cases wrv <;>
          simp [phaseTables, phaseStep, callStep, hostWriteBack, objGet]
    | ackInit => simp [phaseTables, phaseStep, callStep, hostAckInit, objGet]
    | cleanup => simp [phaseTables, phaseStep, callStep, stubCleanup, objDel]
  | live b rv ev =>
    cases e with
    | deliver o =>
      rcases o with msg | v
      · by_cases hc : msg ≠ "target closed while handling command"
            ∧ msg ≠ "Cannot find context with specified id"
        · cases wrv <;>
            simp [phaseTables, phaseStep, callStep, hostWriteBack, objGet,
              objSet, hc]
        · cases wrv <;>
            simp [phaseTables, phaseStep, callStep, hostWriteBack, objGet,
              objSet, hc]
      · cases wrv <;>
          simp [phaseTables, phaseStep, callStep, hostWriteBack, objGet, objSet]
    | ackInit =>
      simp [phaseTables, phaseStep, callStep, hostAckInit, objGet, objSet]
    | cleanup =>
      simp [phaseTables, phaseStep, callStep, stubCleanup, objDel]

/-- The event fold acts on denoted tables as the phase fold. -/
theorem runSteps_phase (wrv : Bool) (seq name : String) (args : List Value)
    (events : List CallEvent) :
    ∀ ph, events.foldl (fun t e => callStep wrv t seq e)
        (phaseTables seq name args ph)
      = phaseTables seq name args (events.foldl (phaseStep wrv) ph) := by
  induction events with
  | nil => intro ph; rfl
  | cons e rest ih =>
    intro ph
    rw [List.foldl_cons, List.foldl_cons, callStep_phase, ih]

/-- A full invocation run is the denotation of a phase fold from the
recorded phase (live) or, in the fire-and-forget path, the absent phase. -/
theorem runCall_phase (wrv : Bool) (name : String) (args : List Value)
    (seq : String) (events : List CallEvent) :
    runCall wrv name args seq events
      = phaseTables seq name args
          (events.foldl (phaseStep wrv)
            (if wrv then CallPhase.live false none none else CallPhase.absent)) := by
  have h0 : (if wrv then stubRecord emptyTables seq name args
        else stubCleanup (stubRecord emptyTables seq name args) seq)
      = phaseTables seq name args
          (if wrv then CallPhase.live false none none else CallPhase.absent) := by
    cases wrv <;>
      simp [stubRecord, emptyTables, stubCleanup, phaseTables, objSet, objDel]
  show List.foldl (fun t e => callStep wrv t seq e)
      (if wrv then stubRecord emptyTables seq name args
       else stubCleanup (stubRecord emptyTables seq name args) seq) events = _
  rw [h0, runSteps_phase]

/-- A withReturnValue invocation starts in the recorded live phase. -/
theorem runCall_phase_live (name : String) (args : List Value) (seq : String)
    (events : List CallEvent) :
    runCall true name args seq events
      = phaseTables seq name args
          (events.foldl (phaseStep true) (CallPhase.live false none none)) := by
  rw [runCall_phase]
  rfl

/-- A fire-and-forget invocation starts in the absent phase. -/
theorem runCall_phase_absent (name : String) (args : List Value) (seq : String)
    (events : List CallEvent) :
    runCall false name args seq events
      = phaseTables seq name args
          (events.foldl (phaseStep false) CallPhase.absent) := by
  rw [runCall_phase]
  rfl

/-- Once absent, the phase stays absent under every further event. -/
theorem foldl_phaseStep_absent (wrv : Bool) (events : List CallEvent) :
    events.foldl (phaseStep wrv) CallPhase.absent = CallPhase.absent := by
  induction events with
  | nil => rfl
  | cons e rest ih => rw [List.foldl_cons]; exact ih

/-- A prefix of acknowledgments only toggles the init bit of a live phase. -/
theorem foldl_phaseStep_ackOnly (wrv : Bool) (ackList : List CallEvent) :
    ∀ (b : Bool) (rv ev : Option Written),
      (∀ e ∈ ackList, e = CallEvent.ackInit) →
      ∃ b2, ackList.foldl (phaseStep wrv) (CallPhase.live b rv ev)
        = CallPhase.live b2 rv ev := by
  induction ackList with
  | nil => intro b rv ev _; exact ⟨b, rfl⟩
  | cons e rest ih =>
    intro b rv ev h
    have he := h e (List.mem_cons_self _ _)
    subst he
    rw [List.foldl_cons]
    exact ih true rv ev (fun e2 hm => h e2 (List.mem_cons_of_mem _ hm))

/-- Every cleanup event leads to the absent phase. -/
theorem phaseStep_cleanup (wrv : Bool) (ph : CallPhase) :
    phaseStep wrv ph CallEvent.cleanup = CallPhase.absent := by
  cases ph <;> rfl

/-- C5 counterexample: the claimed exactly-one transition fails in both
directions.  When the only host processing of a withReturnValue invocation
fails with a context-gone error, the write-back is swallowed and neither
entry ever becomes populated; and when a retry re-transmission makes the
host process the payload twice with mixed outcomes, both entries become
populated. -/
theorem pending_state_counterexample :
    (populatedIn (runCall true "echo" [] "0-0.5"
        [CallEvent.deliver (Except.error "Cannot find context with specified id")]).returnValues
        "0-0.5" = false
      ∧ populatedIn (runCall true "echo" [] "0-0.5"
        [CallEvent.deliver (Except.error "Cannot find context with specified id")]).errors
        "0-0.5" = false)
    ∧ (populatedIn (runCall true "echo" [] "1-0.5"
        [CallEvent.deliver (Except.ok (Value.strV "r")),
         CallEvent.deliver (Except.error "boom")]).returnValues "1-0.5" = true
      ∧ populatedIn (runCall true "echo" [] "1-0.5"
        [CallEvent.deliver (Except.ok (Value.strV "r")),
         CallEvent.deliver (Except.error "boom")]).errors "1-0.5" = true) := by
  refine ⟨⟨?_, ?_⟩, ?_, ?_⟩ <;> rfl

/-- C5 amended: when the host processes a withReturnValue call exactly once
while the entries are still live (any number of acknowledgments first), at
most one entry transitions to populated: the returnValues entry on a
successful settle, the errors entry on a non-target-gone failure, neither on
a target-gone failure; once the stub settle cleanup runs, both entries are
deleted together and remain absent under every later acknowledgment,
write-back or cleanup; and in the fire-and-forget path both entries are
deleted immediately, so every later host action is a guarded no-op. -/
theorem pending_state_amended (name : String) (args : List Value)
    (wrv : Bool) (seq : String) :
    (∀ (ackList : List CallEvent), (∀ e ∈ ackList, e = CallEvent.ackInit) →
      (∀ v,
        populatedIn (runCall true name args seq
          (ackList ++ [CallEvent.deliver (Except.ok v)])).returnValues seq = true
        ∧ populatedIn (runCall true name args seq
          (ackList ++ [CallEvent.deliver (Except.ok v)])).errors seq = false)
      ∧ (∀ msg, msg ≠ "target closed while handling command" →
          msg ≠ "Cannot find context with specified id" →
          populatedIn (runCall true name args seq
            (ackList ++ [CallEvent.deliver (Except.error msg)])).errors seq = true
          ∧ populatedIn (runCall true name args seq
            (ackList ++ [CallEvent.deliver (Except.error msg)])).returnValues seq = false)
      ∧ (∀ msg, (msg = "target closed while handling command"
            ∨ msg = "Cannot find context with specified id") →
          populatedIn (runCall true name args seq
            (ackList ++ [CallEvent.deliver (Except.error msg)])).returnValues seq = false
          ∧ populatedIn (runCall true name args seq
            (ackList ++ [CallEvent.deliver (Except.error msg)])).errors seq = false))
    ∧ (∀ (events post : List CallEvent),
        objGet (runCall wrv name args seq
          (events ++ CallEvent.cleanup :: post)).returnValues seq = none
        ∧ objGet (runCall wrv name args seq
          (events ++ CallEvent.cleanup :: post)).errors seq = none)
    ∧ (wrv = false → ∀ (events : List CallEvent),
        objGet (runCall wrv name args seq events).returnValues seq = none
        ∧ objGet (runCall wrv name args seq events).errors seq = none) := by
  refine ⟨?_, ?_, ?_⟩
  · intro ackList hack
    obtain ⟨b2, hb2⟩ :=
      foldl_phaseStep_ackOnly true ackList false none none hack
    refine ⟨?_, ?_, ?_⟩
    · intro v
      rw [runCall_phase_live, List.foldl_append, hb2]
      constructor <;>
        simp [phaseStep, phaseTables, populatedIn, objGet]
    · intro msg hm1 hm2
      rw [runCall_phase_live, List.foldl_append, hb2]
      constructor <;>
        simp [phaseStep, phaseTables, populatedIn, objGet, hm1, hm2]
    · intro msg hm
      rw [runCall_phase_live, List.foldl_append, hb2]
      rcases hm with hm | hm <;> subst hm <;>
        constructor <;>
        simp [phaseStep, phaseTables, populatedIn, objGet]
  · intro events post
    rw [runCall_phase]
    rw [List.foldl_append, List.foldl_cons, phaseStep_cleanup,
      foldl_phaseStep_absent]
    constructor <;> simp [phaseTables, objGet]
  · intro hw events
    subst hw
    rw [runCall_phase_absent, foldl_phaseStep_absent]
    constructor <;> simp [phaseTables, objGet]

/-- C5 amended, instantiated: a single successful live settle populates
exactly the returnValues entry. -/
theorem pending_state_amended_witness :
    populatedIn (runCall true "ping" [] "1-0.25"
      ([] ++ [CallEvent.deliver (Except.ok (Value.strV "pong"))])).returnValues
      "1-0.25" = true
    ∧ populatedIn (runCall true "ping" [] "1-0.25"
      ([] ++ [CallEvent.deliver (Except.ok (Value.strV "pong"))])).errors
      "1-0.25" = false :=
  (((pending_state_amended "ping" [] true "1-0.25").1 []
      (fun _ hm => absurd hm (List.not_mem_nil _))).1) (Value.strV "pong")

end ECdp

